import Mathlib

/-!
Verification development for the Schedule Solver Orchestration Engine of the
NewStart Core Backend.  The orchestration core (Model Builder, Solver Run
Manager, Solver Backend Adapter, KPI Evaluator) lives in Python worker
services that are not part of the checked-in TypeScript sources, so the
definitions below are shallow embeddings modelled from the design
specification.  The NestJS dependency-injection glue that is present in the
sources is embedded directly at the end of the file.
-/

/-- Modelled from the spec: a staff member of a ScheduleRequest (section 3);
the manager worker source holding the concrete record is missing from the
repository sources.  Fields kept: id, role, min/max hours. -/
structure Staff where
  id : Nat
  role : Nat
  minHours : Nat
  maxHours : Nat
deriving DecidableEq

/-- Modelled from the spec: a required role with its head-count inside a
shift template (section 3). -/
structure RoleRequirement where
  role : Nat
  count : Nat
deriving DecidableEq

/-- Modelled from the spec: a shift template of a ScheduleRequest
(section 3): time window plus required roles and counts. -/
structure Shift where
  id : Nat
  startTime : Nat
  endTime : Nat
  required : List RoleRequirement
deriving DecidableEq

/-- Modelled from the spec: a soft constraint with its penalty weight
(sections 3 and 4.1).  The kind selects which rule is penalised. -/
structure SoftConstraint where
  kind : Nat
  weight : Nat
deriving DecidableEq

/-- Modelled from the spec: a normalized scheduling request (section 3);
the manager worker source is missing from the repository sources. -/
structure ScheduleRequest where
  orgId : Nat
  horizonStart : Nat
  horizonEnd : Nat
  staff : List Staff
  shifts : List Shift
  softCons : List SoftConstraint
deriving DecidableEq

/-- Modelled from the spec: one decision variable of the SolverModel, one
per staff times shift candidate assignment (section 3). -/
structure VarId where
  staffId : Nat
  shiftId : Nat
deriving DecidableEq

/-- Modelled from the spec: hard constraints of the SolverModel
(section 3): coverage per shift-role slot and non-overlap per staff and
overlapping shift pair. -/
inductive HardConstraint where
  | coverage (shiftId : Nat) (role : Nat) (count : Nat)
  | nonOverlap (staffId : Nat) (shift1 : Nat) (shift2 : Nat)
deriving DecidableEq

/-- Modelled from the spec: the canonical, engine-agnostic SolverModel
derived from a ScheduleRequest (section 3). -/
structure SolverModel where
  vars : List VarId
  constraints : List HardConstraint
  soft : List SoftConstraint
deriving DecidableEq

/-- Modelled from the spec: the kind a ModelBuildError carries
(section 4.1). -/
inductive BuildErrorKind where
  | MALFORMED_INPUT
deriving DecidableEq

/-- Modelled from the spec: the error returned by build on a structurally
invalid request (section 4.1). -/
structure ModelBuildError where
  kind : BuildErrorKind
deriving DecidableEq

/-- Modelled from the spec: duplicate detection over a list of ids, used by
the structural validation of build (section 4.1). -/
def hasDuplicate : List Nat → Bool
  | [] => false
  | x :: xs => xs.contains x || hasDuplicate xs

/-- Modelled from the spec: the structural precondition check of build
(section 4.1): non-empty staff set, non-empty shift set, horizon start
before end, no duplicate staff or shift ids. -/
def malformed (r : ScheduleRequest) : Bool :=
  r.staff.isEmpty || r.shifts.isEmpty || !(decide (r.horizonStart < r.horizonEnd))
    || hasDuplicate (r.staff.map Staff.id) || hasDuplicate (r.shifts.map Shift.id)

/-- Modelled from the spec: the deterministic variable construction, one
variable per staff times shift candidate, in request order (section 3). -/
def mkVars (r : ScheduleRequest) : List VarId :=
  r.staff.flatMap (fun st => r.shifts.map (fun sh => VarId.mk st.id sh.id))

/-- Modelled from the spec: whether two shift time windows overlap, used by
the non-overlap hard constraints (section 3). -/
def shiftsOverlap (a b : Shift) : Bool :=
  a.startTime < b.endTime && b.startTime < a.endTime

/-- Modelled from the spec: coverage hard constraints, one per shift-role
requirement, in request order (section 3). -/
def mkCoverage (r : ScheduleRequest) : List HardConstraint :=
  r.shifts.flatMap (fun sh => sh.required.map (fun rr => HardConstraint.coverage sh.id rr.role rr.count))

/-- Modelled from the spec: non-overlap hard constraints, one per staff
member and ordered pair of overlapping shifts, in request order
(section 3). -/
def mkNonOverlap (r : ScheduleRequest) : List HardConstraint :=
  r.staff.flatMap (fun st =>
    r.shifts.flatMap (fun s1 =>
      r.shifts.filterMap (fun s2 =>
        if s1.id < s2.id && shiftsOverlap s1 s2 then
          some (HardConstraint.nonOverlap st.id s1.id s2.id)
        else none)))

/-- Modelled from the spec: the model constructed from a structurally valid
request (sections 3 and 4.1). -/
def mkModel (r : ScheduleRequest) : SolverModel :=
  SolverModel.mk (mkVars r) (mkCoverage r ++ mkNonOverlap r) r.softCons

/-- Modelled from the spec: build, the Model Builder contract of
section 4.1.  Validates structural preconditions first and fails fast with
a ModelBuildError of kind MALFORMED_INPUT before any variable
construction; otherwise constructs the canonical model. -/
def build (r : ScheduleRequest) : Except ModelBuildError SolverModel :=
  if malformed r then Except.error (ModelBuildError.mk BuildErrorKind.MALFORMED_INPUT)
  else Except.ok (mkModel r)

/-- Modelled from the spec: a deterministic hash over a variable, feeding
the model hash of section 8. -/
def varHash (v : VarId) : Nat :=
  v.staffId * 1000003 + v.shiftId

/-- Modelled from the spec: a deterministic hash over a hard constraint,
feeding the model hash of section 8. -/
def hcHash : HardConstraint → Nat
  | HardConstraint.coverage s ro c => 3 + s * 7 + ro * 11 + c * 13
  | HardConstraint.nonOverlap st a b => 5 + st * 7 + a * 11 + b * 13

/-- Modelled from the spec: the deterministic hash of a SolverModel used to
state build determinism (section 8). -/
def modelHash (m : SolverModel) : Nat :=
  ((m.vars.map varHash).foldl (fun a h => a * 31 + h) 17) * 31
    + ((m.constraints.map hcHash).foldl (fun a h => a * 31 + h) 19)

theorem hasDuplicate_eq_true_iff (l : List Nat) : hasDuplicate l = true ↔ ¬ l.Nodup := by
  induction l with
  | nil => simp [hasDuplicate]
  | cons x xs ih => simp [hasDuplicate, List.nodup_cons, ih, or_iff_not_imp_left]

theorem malformed_eq_true_iff (r : ScheduleRequest) :
    malformed r = true ↔
      (r.staff = [] ∨ r.shifts = [] ∨ ¬ r.horizonStart < r.horizonEnd
        ∨ ¬ (r.staff.map Staff.id).Nodup ∨ ¬ (r.shifts.map Shift.id).Nodup) := by
  simp [malformed, hasDuplicate_eq_true_iff, List.isEmpty_iff, not_lt, or_assoc]

/-- C1: build is deterministic.  For every valid ScheduleRequest, two runs
of build on identical input produce models with identical variable
ordering, identical constraint ordering and identical hashes. -/
theorem build_deterministic (r : ScheduleRequest) (m1 m2 : SolverModel)
    (h1 : build r = Except.ok m1) (h2 : build r = Except.ok m2) :
    m1.vars = m2.vars ∧ m1.constraints = m2.constraints
      ∧ modelHash m1 = modelHash m2 := by
  have h : m1 = m2 := Except.ok.inj (h1.symm.trans h2)
  subst h
  exact And.intro rfl (And.intro rfl rfl)

/-- Concrete valid request used to witness build determinism. -/
def sampleValidReq : ScheduleRequest :=
  ScheduleRequest.mk 1 0 24
    [Staff.mk 1 0 0 8, Staff.mk 2 0 0 8]
    [Shift.mk 10 0 8 [RoleRequirement.mk 0 1], Shift.mk 11 8 16 [RoleRequirement.mk 0 1]]
    [SoftConstraint.mk 0 5]

theorem build_deterministic_witness :
    (mkModel sampleValidReq).vars = (mkModel sampleValidReq).vars
      ∧ (mkModel sampleValidReq).constraints = (mkModel sampleValidReq).constraints
      ∧ modelHash (mkModel sampleValidReq) = modelHash (mkModel sampleValidReq) :=
  build_deterministic sampleValidReq (mkModel sampleValidReq) (mkModel sampleValidReq)
    (by rfl) (by rfl)

/-- C2: for every ScheduleRequest violating a structural precondition
(empty staff set, empty shift set, horizon start not strictly before end,
or duplicate staff or shift ids), build returns a ModelBuildError of kind
MALFORMED_INPUT and constructs no model, hence no variables. -/
theorem build_malformed_input (r : ScheduleRequest)
    (h : r.staff = [] ∨ r.shifts = [] ∨ ¬ r.horizonStart < r.horizonEnd
      ∨ ¬ (r.staff.map Staff.id).Nodup ∨ ¬ (r.shifts.map Shift.id).Nodup) :
    build r = Except.error (ModelBuildError.mk BuildErrorKind.MALFORMED_INPUT)
      ∧ ∀ m : SolverModel, build r ≠ Except.ok m := by
  have hm : malformed r = true := (malformed_eq_true_iff r).mpr h
  refine And.intro ?_ ?_
  · simp [build, hm]
  · intro m hc
    simp [build, hm] at hc

/-- Concrete request with zero staff used to witness the malformed-input
behaviour of build. -/
def emptyStaffReq : ScheduleRequest :=
  ScheduleRequest.mk 1 0 24 [] [Shift.mk 10 0 8 [RoleRequirement.mk 0 1]] []

theorem build_malformed_input_witness :
    build emptyStaffReq = Except.error (ModelBuildError.mk BuildErrorKind.MALFORMED_INPUT) :=
  (build_malformed_input emptyStaffReq (Or.inl rfl)).1

/-- Modelled from the spec: the run lifecycle states of the Solver Run
Manager (section 4.2); the run manager source is missing from the
repository sources. -/
inductive RunState where
  | QUEUED
  | RUNNING
  | SUCCEEDED
  | INFEASIBLE
  | TIMED_OUT
  | FAILED
  | CANCELLED
deriving DecidableEq, Fintype

/-- Modelled from the spec: whether a lifecycle state is terminal
(section 4.2). -/
def RunState.isTerminal : RunState → Bool
  | RunState.SUCCEEDED => true
  | RunState.INFEASIBLE => true
  | RunState.TIMED_OUT => true
  | RunState.FAILED => true
  | RunState.CANCELLED => true
  | _ => false

/-- Modelled from the spec: the transition relation of the lifecycle state
machine (section 4.2).  RUNNING to RUNNING is the fallback re-entry of
section 4.2; any non-terminal state may step to CANCELLED. -/
def stepOk : RunState → RunState → Bool
  | RunState.QUEUED, RunState.RUNNING => true
  | RunState.QUEUED, RunState.CANCELLED => true
  | RunState.RUNNING, RunState.RUNNING => true
  | RunState.RUNNING, RunState.SUCCEEDED => true
  | RunState.RUNNING, RunState.INFEASIBLE => true
  | RunState.RUNNING, RunState.TIMED_OUT => true
  | RunState.RUNNING, RunState.FAILED => true
  | RunState.RUNNING, RunState.CANCELLED => true
  | _, _ => false

/-- Modelled from the spec: a SolverRun as accepted by the Run Manager
(section 3): identity plus current lifecycle state. -/
structure SolverRun where
  runId : Nat
  state : RunState
deriving DecidableEq

/-- Modelled from the spec: the run created when the Run Manager accepts a
request; QUEUED is the initial state (section 4.2). -/
def newRun (id : Nat) : SolverRun :=
  SolverRun.mk id RunState.QUEUED

/-- Modelled from the spec: the closed set of solver engines (sections 2
and 9): the CP-SAT-style constraint solver and the MIP solver. -/
inductive Engine where
  | cpSat
  | mip
deriving DecidableEq, Fintype

/-- Modelled from the spec: the canonical outcome kinds a backend adapter
may report (section 3). -/
inductive Outcome where
  | OPTIMAL
  | FEASIBLE
  | INFEASIBLE
  | TIMEOUT_NO_SOLUTION
  | ERROR
deriving DecidableEq, Fintype

/-- Modelled from the spec: one attempt of a run against one engine
(section 4.2): the engine, the model handed to it (the same SolverModel is
preserved across fallback), and the time budget (a fresh full budget per
attempt). -/
structure Attempt where
  engine : Engine
  model : SolverModel
  budget : Nat
deriving DecidableEq

/-- Modelled from the spec: the fallback execution loop of the Run Manager
(sections 4.2 and 5); the run manager source is missing from the
repository sources.  The oracle gives each engine outcome on the model;
cancelled k tells whether a cancellation request has been observed before
attempt number k.  The result is the list of attempts actually made and
the terminal state: OPTIMAL or FEASIBLE ends in SUCCEEDED, INFEASIBLE
ends in INFEASIBLE with no fallback, TIMEOUT_NO_SOLUTION and ERROR move
to the next engine when one exists and the run is not cancelled, else
end in TIMED_OUT and FAILED respectively; a cancellation observed before
an attempt ends the run in CANCELLED at once. -/
def execRun (oracle : Engine → SolverModel → Outcome) (cancelled : Nat → Bool)
    (model : SolverModel) (budget : Nat) : List Engine → Nat → List Attempt × RunState
  | [], k =>
    if cancelled k then ([], RunState.CANCELLED) else ([], RunState.FAILED)
  | e :: rest, k =>
    if cancelled k then ([], RunState.CANCELLED)
    else
      match oracle e model, rest with
      | Outcome.OPTIMAL, _ => ([Attempt.mk e model budget], RunState.SUCCEEDED)
      | Outcome.FEASIBLE, _ => ([Attempt.mk e model budget], RunState.SUCCEEDED)
      | Outcome.INFEASIBLE, _ => ([Attempt.mk e model budget], RunState.INFEASIBLE)
      | Outcome.TIMEOUT_NO_SOLUTION, [] => ([Attempt.mk e model budget], RunState.TIMED_OUT)
      | Outcome.TIMEOUT_NO_SOLUTION, e2 :: rest2 =>
        let p := execRun oracle cancelled model budget (e2 :: rest2) (k + 1)
        (Attempt.mk e model budget :: p.1, p.2)
      | Outcome.ERROR, [] => ([Attempt.mk e model budget], RunState.FAILED)
      | Outcome.ERROR, e2 :: rest2 =>
        let p := execRun oracle cancelled model budget (e2 :: rest2) (k + 1)
        (Attempt.mk e model budget :: p.1, p.2)

/-- C3: INFEASIBLE is never retried against a fallback engine.  If the
current engine reports INFEASIBLE, the run ends in terminal state
INFEASIBLE with exactly the one attempt against that engine, so the
fallback adapter is invoked zero times, regardless of how many engines
remain in the candidate list. -/
theorem infeasible_no_fallback (oracle : Engine → SolverModel → Outcome)
    (cancelled : Nat → Bool) (model : SolverModel) (budget : Nat)
    (e : Engine) (rest : List Engine)
    (hnc : cancelled 0 = false) (hinf : oracle e model = Outcome.INFEASIBLE) :
    execRun oracle cancelled model budget (e :: rest) 0
      = ([Attempt.mk e model budget], RunState.INFEASIBLE) := by
  cases rest <;> (unfold execRun; simp [hnc, hinf])

theorem infeasible_no_fallback_witness :
    execRun (fun _ _ => Outcome.INFEASIBLE) (fun _ => false)
        (SolverModel.mk [] [] []) 60 [Engine.cpSat, Engine.mip] 0
      = ([Attempt.mk Engine.cpSat (SolverModel.mk [] [] []) 60], RunState.INFEASIBLE) :=
  infeasible_no_fallback (fun _ _ => Outcome.INFEASIBLE) (fun _ => false)
    (SolverModel.mk [] [] []) 60 Engine.cpSat [Engine.mip] rfl rfl

/-- C5: cancelling a QUEUED run.  A cancellation request observed before
the first attempt, that is while the run is still QUEUED, always ends the
run in terminal state CANCELLED with an empty attempt list, hence zero
backend invocations. -/
theorem cancel_queued (oracle : Engine → SolverModel → Outcome)
    (cancelled : Nat → Bool) (model : SolverModel) (budget : Nat)
    (engines : List Engine) (hc : cancelled 0 = true) :
    execRun oracle cancelled model budget engines 0 = ([], RunState.CANCELLED) := by
  cases engines <;> (unfold execRun; simp [hc])

theorem cancel_queued_witness :
    execRun (fun _ _ => Outcome.OPTIMAL) (fun _ => true)
        (SolverModel.mk [] [] []) 60 [Engine.cpSat, Engine.mip] 0
      = ([], RunState.CANCELLED) :=
  cancel_queued (fun _ _ => Outcome.OPTIMAL) (fun _ => true)
    (SolverModel.mk [] [] []) 60 [Engine.cpSat, Engine.mip] rfl

/-- C7: the lifecycle state machine.  Every run starts in QUEUED; the
state type has exactly the seven listed states; SUCCEEDED, INFEASIBLE,
TIMED_OUT, FAILED and CANCELLED are terminal, admitting no step; and
CANCELLED is reachable in one step from every non-terminal state. -/
theorem run_lifecycle_state_machine :
    (∀ i : Nat, (newRun i).state = RunState.QUEUED)
      ∧ Fintype.card RunState = 7
      ∧ (∀ s t : RunState, s.isTerminal = true → stepOk s t = false)
      ∧ (∀ s : RunState, s.isTerminal = false → stepOk s RunState.CANCELLED = true) :=
  And.intro (fun _ => rfl) (And.intro (by decide) (And.intro (by decide) (by decide)))

theorem run_lifecycle_state_machine_witness :
    stepOk RunState.SUCCEEDED RunState.RUNNING = false
      ∧ stepOk RunState.QUEUED RunState.CANCELLED = true :=
  And.intro (run_lifecycle_state_machine.2.2.1 RunState.SUCCEEDED RunState.RUNNING rfl)
    (run_lifecycle_state_machine.2.2.2 RunState.QUEUED rfl)

theorem execRun_head (oracle : Engine → SolverModel → Outcome) (cancelled : Nat → Bool)
    (model : SolverModel) (budget : Nat) (e : Engine) (rest : List Engine) (k : Nat)
    (hnc : cancelled k = false) :
    (execRun oracle cancelled model budget (e :: rest) k).1.head?
      = some (Attempt.mk e model budget) := by
  cases ho : oracle e model <;> cases rest <;> (unfold execRun; simp [hnc, ho])

theorem execRun_shape (oracle : Engine → SolverModel → Outcome) (cancelled : Nat → Bool)
    (model : SolverModel) (budget : Nat) :
    ∀ (engines : List Engine) (k : Nat),
      ∃ n, (execRun oracle cancelled model budget engines k).1
        = (engines.take n).map (fun e => Attempt.mk e model budget) := by
  intro engines
  induction engines with
  | nil =>
    intro k
    exact ⟨0, by unfold execRun; split <;> simp⟩
  | cons e rest ih =>
    intro k
    by_cases hc : cancelled k = true
    · exact ⟨0, by unfold execRun; simp [hc]⟩
    · have hc' : cancelled k = false := by simpa using hc
      cases ho : oracle e model with
      | OPTIMAL => exact ⟨1, by unfold execRun; simp [hc', ho]⟩
      | FEASIBLE => exact ⟨1, by unfold execRun; simp [hc', ho]⟩
      | INFEASIBLE => exact ⟨1, by unfold execRun; simp [hc', ho]⟩
      | TIMEOUT_NO_SOLUTION =>
        cases rest with
        | nil => exact ⟨1, by unfold execRun; simp [hc', ho]⟩
        | cons e2 rest2 =>
          obtain ⟨n, hn⟩ := ih (k + 1)
          exact ⟨n + 1, by unfold execRun; simp [hc', ho, hn]⟩
      | ERROR =>
        cases rest with
        | nil => exact ⟨1, by unfold execRun; simp [hc', ho]⟩
        | cons e2 rest2 =>
          obtain ⟨n, hn⟩ := ih (k + 1)
          exact ⟨n + 1, by unfold execRun; simp [hc', ho, hn]⟩

theorem execRun_exhaust (oracle : Engine → SolverModel → Outcome) (cancelled : Nat → Bool)
    (model : SolverModel) (budget : Nat) :
    ∀ (engines : List Engine) (k : Nat),
      ((execRun oracle cancelled model budget engines k).2 = RunState.TIMED_OUT
        ∨ (execRun oracle cancelled model budget engines k).2 = RunState.FAILED) →
      (execRun oracle cancelled model budget engines k).1.length = engines.length := by
  intro engines
  induction engines with
  | nil =>
    intro k h
    unfold execRun
    split <;> simp
  | cons e rest ih =>
    intro k h
    by_cases hc : cancelled k = true
    · exfalso
      unfold execRun at h
      simp [hc] at h
    · have hc' : cancelled k = false := by simpa using hc
      cases ho : oracle e model with
      | OPTIMAL => exfalso; unfold execRun at h; simp [hc', ho] at h
      | FEASIBLE => exfalso; unfold execRun at h; simp [hc', ho] at h
      | INFEASIBLE => exfalso; unfold execRun at h; simp [hc', ho] at h
      | TIMEOUT_NO_SOLUTION =>
        cases rest with
        | nil => unfold execRun; simp [hc', ho]
        | cons e2 rest2 =>
          unfold execRun at h ⊢
          simp only [hc', ho] at h ⊢
          simp at h ⊢
          exact ih (k + 1) h
      | ERROR =>
        cases rest with
        | nil => unfold execRun; simp [hc', ho]
        | cons e2 rest2 =>
          unfold execRun at h ⊢
          simp only [hc', ho] at h ⊢
          simp at h ⊢
          exact ih (k + 1) h

/-- C4: fallback on TIMEOUT_NO_SOLUTION or FAILED.  If the current engine
reports TIMEOUT_NO_SOLUTION or an unrecoverable error, a next engine
exists, and the run has not been cancelled, then the run re-enters
execution against the next engine exactly once: the attempt list is the
attempt on the current engine followed by the attempts of the continued
run, whose first attempt is against the next engine; every attempt of the
same run carries the same SolverModel and a fresh full time budget; and a
terminal TIMED_OUT or FAILED state is produced only when the attempt list
exhausts the whole candidate list. -/
theorem fallback_advances_once (oracle : Engine → SolverModel → Outcome)
    (cancelled : Nat → Bool) (model : SolverModel) (budget : Nat)
    (e e2 : Engine) (rest2 : List Engine)
    (hout : oracle e model = Outcome.TIMEOUT_NO_SOLUTION ∨ oracle e model = Outcome.ERROR)
    (hnc0 : cancelled 0 = false) (hnc1 : cancelled 1 = false) :
    execRun oracle cancelled model budget (e :: e2 :: rest2) 0
      = (Attempt.mk e model budget :: (execRun oracle cancelled model budget (e2 :: rest2) 1).1,
         (execRun oracle cancelled model budget (e2 :: rest2) 1).2)
    ∧ (execRun oracle cancelled model budget (e2 :: rest2) 1).1.head?
        = some (Attempt.mk e2 model budget)
    ∧ (∀ a ∈ (execRun oracle cancelled model budget (e :: e2 :: rest2) 0).1,
        a.model = model ∧ a.budget = budget)
    ∧ (((execRun oracle cancelled model budget (e :: e2 :: rest2) 0).2 = RunState.TIMED_OUT
        ∨ (execRun oracle cancelled model budget (e :: e2 :: rest2) 0).2 = RunState.FAILED) →
      (execRun oracle cancelled model budget (e :: e2 :: rest2) 0).1.length = 2 + rest2.length) := by
  refine And.intro ?_ (And.intro ?_ (And.intro ?_ ?_))
  · rcases hout with ho | ho <;>
      (conv_lhs => unfold execRun) <;> simp [hnc0, *]
  · exact execRun_head oracle cancelled model budget e2 rest2 1 hnc1
  · obtain ⟨n, hn⟩ := execRun_shape oracle cancelled model budget (e :: e2 :: rest2) 0
    rw [hn]
    intro a ha
    simp only [List.mem_map] at ha
    obtain ⟨x, _, rfl⟩ := ha
    exact And.intro rfl rfl
  · intro h
    have hl := execRun_exhaust oracle cancelled model budget (e :: e2 :: rest2) 0 h
    rw [hl]
    simp only [List.length_cons]
    omega

/-- Oracle for the fallback witness: every engine reports
TIMEOUT_NO_SOLUTION. -/
def allTimeoutOracle : Engine → SolverModel → Outcome :=
  fun _ _ => Outcome.TIMEOUT_NO_SOLUTION

/-- Cancellation oracle that never fires. -/
def neverCancelled : Nat → Bool :=
  fun _ => false

/-- Trivial model used by the run manager witnesses. -/
def trivialModel : SolverModel :=
  SolverModel.mk [] [] []

theorem fallback_advances_once_witness :
    execRun allTimeoutOracle neverCancelled trivialModel 60 [Engine.cpSat, Engine.mip] 0
      = (Attempt.mk Engine.cpSat trivialModel 60
          :: (execRun allTimeoutOracle neverCancelled trivialModel 60 [Engine.mip] 1).1,
         (execRun allTimeoutOracle neverCancelled trivialModel 60 [Engine.mip] 1).2)
    ∧ (execRun allTimeoutOracle neverCancelled trivialModel 60 [Engine.mip] 1).1.head?
        = some (Attempt.mk Engine.mip trivialModel 60)
    ∧ (execRun allTimeoutOracle neverCancelled trivialModel 60 [Engine.cpSat, Engine.mip] 0).1.length
        = 2 + ([] : List Engine).length := by
  have h := fallback_advances_once allTimeoutOracle neverCancelled trivialModel 60
    Engine.cpSat Engine.mip [] (Or.inl rfl) rfl rfl
  exact And.intro h.1 (And.intro h.2.1 (h.2.2.2 (Or.inl (by decide))))

/-- Modelled from the spec: the mutable admission state of the Solver Run
Manager (sections 4.2 and 5); the run manager source is missing from the
repository sources.  The queued list holds run ids in arrival order; the
running list holds the runs currently holding a worker slot; poolSize is
the configured worker-pool size. -/
structure ManagerState where
  poolSize : Nat
  queued : List Nat
  running : List Nat
deriving DecidableEq

/-- Modelled from the spec: submitting a request appends its run at the
back of the arrival-ordered queue (section 5). -/
def submit (s : ManagerState) (r : Nat) : ManagerState :=
  ManagerState.mk s.poolSize (s.queued ++ [r]) s.running

/-- Modelled from the spec: dispatch moves the earliest-arrived QUEUED run
to RUNNING when a worker slot is free, and does nothing otherwise
(sections 4.2 and 5).  The second component reports which run, if any,
started RUNNING. -/
def dispatch (s : ManagerState) : ManagerState × Option Nat :=
  if s.running.length < s.poolSize then
    match s.queued with
    | [] => (s, none)
    | r :: rest => (ManagerState.mk s.poolSize rest (s.running ++ [r]), some r)
  else (s, none)

/-- Modelled from the spec: a run reaching a terminal state releases its
worker slot (section 5). -/
def finish (s : ManagerState) (r : Nat) : ManagerState :=
  ManagerState.mk s.poolSize s.queued (s.running.erase r)

/-- Modelled from the spec: the worker-pool cap invariant, at most
poolSize runs simultaneously RUNNING (section 5). -/
def capInv (s : ManagerState) : Prop :=
  s.running.length ≤ s.poolSize

instance (s : ManagerState) : Decidable (capInv s) :=
  inferInstanceAs (Decidable (s.running.length ≤ s.poolSize))

/-- C9: FIFO admission under the worker-pool cap.  Submit, dispatch and
finish preserve the cap of at most poolSize simultaneously RUNNING runs;
whenever dispatch moves a run from QUEUED to RUNNING it is the
earliest-arrived queued run; and with pool size one and two back-to-back
submissions, the first dispatch starts the first run while the second run
stays queued, a further dispatch starts nothing while the first run still
holds the slot, and only after the first run finishes does dispatch start
the second run. -/
theorem fifo_admission_under_cap :
    (∀ (s : ManagerState) (r : Nat), capInv s → capInv (submit s r))
    ∧ (∀ s : ManagerState, capInv s → capInv (dispatch s).1)
    ∧ (∀ (s : ManagerState) (r : Nat), capInv s → capInv (finish s r))
    ∧ (∀ (s : ManagerState) (r : Nat), (dispatch s).2 = some r → s.queued.head? = some r)
    ∧ dispatch (submit (submit (ManagerState.mk 1 [] []) 1) 2)
        = (ManagerState.mk 1 [2] [1], some 1)
    ∧ dispatch (ManagerState.mk 1 [2] [1]) = (ManagerState.mk 1 [2] [1], none)
    ∧ dispatch (finish (ManagerState.mk 1 [2] [1]) 1) = (ManagerState.mk 1 [] [2], some 2) := by
  refine And.intro ?_ (And.intro ?_ (And.intro ?_ (And.intro ?_ ?_)))
  · intro s r h
    exact h
  · intro s h
    unfold dispatch
    split
    · split
      · exact h
      · simp only [capInv, List.length_append, List.length_cons, List.length_nil]
        omega
    · exact h
  · intro s r h
    exact le_trans (List.Sublist.length_le (List.erase_sublist r s.running)) h
  · intro s r h
    unfold dispatch at h
    split at h
    · split at h
      · exact absurd h (by simp)
      · simp_all
    · exact absurd h (by simp)
  · exact And.intro (by decide) (And.intro (by decide) (by decide))

theorem fifo_admission_under_cap_witness :
    capInv (submit (ManagerState.mk 1 [] []) 1)
      ∧ (ManagerState.mk 1 [5, 6] []).queued.head? = some 5 :=
  And.intro
    (fifo_admission_under_cap.1 (ManagerState.mk 1 [] []) 1 (by decide))
    (fifo_admission_under_cap.2.2.2.1 (ManagerState.mk 1 [5, 6] []) 5 (by decide))

/-- Modelled from the spec: the native status vocabulary of a concrete
engine before normalization (section 4.3); the adapter sources are missing
from the repository sources. -/
inductive RawStatus where
  | optimal
  | feasible
  | infeasible
  | timeLimitNoSolution
  | engineError
deriving DecidableEq

/-- Modelled from the spec: the raw result a concrete engine hands back to
its adapter (section 4.3): native status, the objective number of its best
incumbent, native assignments and the solve duration. -/
structure RawEngineResult where
  status : RawStatus
  objectiveValue : Rat
  assignments : List (Nat × Nat)
  durationMs : Nat
deriving DecidableEq

/-- Modelled from the spec: the canonical SolutionResult (section 3):
outcome kind, objective value present only for OPTIMAL and FEASIBLE, the
assignment list as staff id and shift id pairs, solve duration and the
engine used. -/
structure SolutionResult where
  kind : Outcome
  objective : Option Rat
  assignments : List (Nat × Nat)
  durationMs : Nat
  engineUsed : Engine
deriving DecidableEq

/-- Modelled from the spec: the adapter normalization of a native engine
result into the canonical SolutionResult (section 4.3): native status
codes map onto the canonical outcome kinds, a solution and objective are
kept only when the engine produced one. -/
def normalizeResult (e : Engine) (raw : RawEngineResult) : SolutionResult :=
  match raw.status with
  | RawStatus.optimal =>
    SolutionResult.mk Outcome.OPTIMAL (some raw.objectiveValue) raw.assignments raw.durationMs e
  | RawStatus.feasible =>
    SolutionResult.mk Outcome.FEASIBLE (some raw.objectiveValue) raw.assignments raw.durationMs e
  | RawStatus.infeasible =>
    SolutionResult.mk Outcome.INFEASIBLE none [] raw.durationMs e
  | RawStatus.timeLimitNoSolution =>
    SolutionResult.mk Outcome.TIMEOUT_NO_SOLUTION none [] raw.durationMs e
  | RawStatus.engineError =>
    SolutionResult.mk Outcome.ERROR none [] raw.durationMs e

/-- C8: the objective-presence invariant of SolutionResult.  Every result
produced by an adapter has its objective value present exactly when its
outcome kind is OPTIMAL or FEASIBLE; for INFEASIBLE, TIMEOUT_NO_SOLUTION
and ERROR outcomes the objective value is absent. -/
theorem objective_present_iff_solution (e : Engine) (raw : RawEngineResult) :
    ((normalizeResult e raw).objective.isSome = true
      ↔ ((normalizeResult e raw).kind = Outcome.OPTIMAL
        ∨ (normalizeResult e raw).kind = Outcome.FEASIBLE))
    ∧ (((normalizeResult e raw).kind = Outcome.INFEASIBLE
        ∨ (normalizeResult e raw).kind = Outcome.TIMEOUT_NO_SOLUTION
        ∨ (normalizeResult e raw).kind = Outcome.ERROR) →
      (normalizeResult e raw).objective = none) := by
  cases hs : raw.status <;> simp [normalizeResult, hs]

theorem objective_present_iff_solution_witness :
    (normalizeResult Engine.cpSat (RawEngineResult.mk RawStatus.infeasible 0 [] 5)).objective
      = none :=
  (objective_present_iff_solution Engine.cpSat
    (RawEngineResult.mk RawStatus.infeasible 0 [] 5)).2 (Or.inl rfl)

/-- Modelled from the spec: the role of a staff member looked up by id in
the request (section 4.4); the evaluation worker source is missing from
the repository sources. -/
def staffRole (req : ScheduleRequest) (sid : Nat) : Option Nat :=
  (req.staff.find? (fun st => st.id == sid)).map Staff.role

/-- Modelled from the spec: the number of shift-role slots a solution
fills for one requirement of one shift, capped at the required count
(section 4.4). -/
def filledFor (req : ScheduleRequest) (res : SolutionResult)
    (shId role need : Nat) : Nat :=
  min need (res.assignments.countP
    (fun a => a.2 == shId && staffRole req a.1 == some role))

/-- Modelled from the spec: the total number of shift-role slots the
request requires (section 4.4). -/
def requiredSlots (req : ScheduleRequest) : Nat :=
  (req.shifts.map (fun sh => (sh.required.map RoleRequirement.count).sum)).sum

/-- Modelled from the spec: the total number of shift-role slots the
returned solution fills (section 4.4). -/
def filledSlots (req : ScheduleRequest) (res : SolutionResult) : Nat :=
  (req.shifts.map (fun sh =>
    (sh.required.map (fun rr => filledFor req res sh.id rr.role rr.count)).sum)).sum

/-- Modelled from the spec: the hours assigned to one staff member by the
solution, summing the durations of the shifts the staff member is
assigned to (section 4.4). -/
def assignedHours (req : ScheduleRequest) (res : SolutionResult) (sid : Nat) : Nat :=
  (res.assignments.filterMap (fun a =>
    if a.1 == sid then
      (req.shifts.find? (fun sh => sh.id == a.2)).map (fun sh => sh.endTime - sh.startTime)
    else none)).sum

/-- Modelled from the spec: fairness spread, the maximum minus the minimum
assigned hours across staff (section 4.4). -/
def fairnessSpreadOf (hs : List Nat) : Nat :=
  hs.foldl max 0 - hs.foldl min (hs.headD 0)

/-- Modelled from the spec: the violation count of one soft constraint in
the returned assignment (section 4.4): kind 0 penalises staff assigned
over their maximum hours, kind 1 penalises staff under their minimum
hours, other kinds are unused. -/
def softViolations (req : ScheduleRequest) (res : SolutionResult) (c : SoftConstraint) : Nat :=
  match c.kind with
  | 0 => req.staff.countP (fun st => decide (st.maxHours < assignedHours req res st.id))
  | 1 => req.staff.countP (fun st => decide (assignedHours req res st.id < st.minHours))
  | _ => 0

/-- Modelled from the spec: the KPIReport of section 3: coverage ratio,
fairness spread across staff and penalty total. -/
structure KPIReport where
  coverageRatio : Rat
  fairnessSpread : Nat
  penaltyTotal : Nat
deriving DecidableEq

/-- Modelled from the spec: the coverage ratio, filled slots over required
slots, with the zero-required edge case defined as one (section 4.4). -/
def coverageRatioOf (req : ScheduleRequest) (res : SolutionResult) : Rat :=
  if requiredSlots req = 0 then 1
  else (filledSlots req res : Rat) / (requiredSlots req : Rat)

/-- Modelled from the spec: evaluate, the KPI Evaluator contract of
section 4.4, a pure function of the request and the solution. -/
def evaluate (req : ScheduleRequest) (res : SolutionResult) : KPIReport :=
  KPIReport.mk (coverageRatioOf req res)
    (fairnessSpreadOf (req.staff.map (fun st => assignedHours req res st.id)))
    ((req.softCons.map (fun c => c.weight * softViolations req res c)).sum)

/-- Concrete request requiring ten role-slots in one shift. -/
def tenSlotReq : ScheduleRequest :=
  ScheduleRequest.mk 1 0 24
    [Staff.mk 0 0 0 8, Staff.mk 1 0 0 8, Staff.mk 2 0 0 8, Staff.mk 3 0 0 8,
     Staff.mk 4 0 0 8, Staff.mk 5 0 0 8, Staff.mk 6 0 0 8, Staff.mk 7 0 0 8,
     Staff.mk 8 0 0 8, Staff.mk 9 0 0 8]
    [Shift.mk 0 0 8 [RoleRequirement.mk 0 10]]
    []

/-- Concrete solution filling eight of the ten slots of tenSlotReq. -/
def eightFilledRes : SolutionResult :=
  SolutionResult.mk Outcome.FEASIBLE (some 8)
    [(0, 0), (1, 0), (2, 0), (3, 0), (4, 0), (5, 0), (6, 0), (7, 0)]
    120 Engine.cpSat

/-- C6: the KPI coverage ratio.  For every request and solution the
coverage ratio equals filled slots over required slots when the required
count is positive, and equals exactly one when the required count is
zero, never a division error; in particular ten required slots with eight
filled yield exactly four fifths. -/
theorem kpi_coverage_ratio :
    (∀ (req : ScheduleRequest) (res : SolutionResult), requiredSlots req = 0 →
      (evaluate req res).coverageRatio = 1)
    ∧ (∀ (req : ScheduleRequest) (res : SolutionResult), 0 < requiredSlots req →
      (evaluate req res).coverageRatio = (filledSlots req res : Rat) / (requiredSlots req : Rat))
    ∧ requiredSlots tenSlotReq = 10
    ∧ filledSlots tenSlotReq eightFilledRes = 8
    ∧ (evaluate tenSlotReq eightFilledRes).coverageRatio = 4 / 5 := by
  refine And.intro ?_ (And.intro ?_ ?_)
  · intro req res h
    simp [evaluate, coverageRatioOf, h]
  · intro req res h
    simp [evaluate, coverageRatioOf, Nat.pos_iff_ne_zero.mp h]
  · have h10 : requiredSlots tenSlotReq = 10 := by decide
    have h8 : filledSlots tenSlotReq eightFilledRes = 8 := by decide
    refine And.intro h10 (And.intro h8 ?_)
    simp only [evaluate, coverageRatioOf, h10, h8]
    norm_num

theorem kpi_coverage_ratio_witness :
    (evaluate (ScheduleRequest.mk 1 0 24 [] [] []) eightFilledRes).coverageRatio = 1
      ∧ (evaluate tenSlotReq eightFilledRes).coverageRatio
        = (filledSlots tenSlotReq eightFilledRes : Rat) / (requiredSlots tenSlotReq : Rat) :=
  And.intro
    (kpi_coverage_ratio.1 (ScheduleRequest.mk 1 0 24 [] [] []) eightFilledRes (by decide))
    (kpi_coverage_ratio.2.1 tenSlotReq eightFilledRes (by decide))

/-- Modelled from the spec: the injection tokens declared by the NestJS
modules of the sources, nlu.module.ts, solver-engine.module.ts and
app.module.ts; the class bodies nlu.service.ts, nlu.controller.ts,
solver-engine.service.ts and solver-engine.controller.ts are missing from
the repository sources. -/
inductive NestToken where
  | solverEngineService
  | solverEngineController
  | nluService
  | nluController
  | appService
  | appController
deriving DecidableEq, Fintype

/-- Modelled from the spec: the constructor dependency list of each class.
The module declarations register every provider and controller with a bare
class reference and the testing modules of the spec files compile listing
a single provider or controller, which under NestJS resolution requires a
dependency-free constructor. -/
def constructorDeps : NestToken → List NestToken :=
  fun _ => []

/-- Modelled from the spec: a resolved instance held by the NestJS
container, tagged by its token. -/
structure NestInstance where
  token : NestToken
deriving DecidableEq

/-- Modelled from the spec: a compiled testing module listing its
registered providers and controllers, as built by Test.createTestingModule
in the spec files. -/
structure TestingModule where
  providers : List NestToken
deriving DecidableEq

/-- Modelled from the spec: compiling a testing module from its
provider and controller list. -/
def compileTestingModule (ps : List NestToken) : TestingModule :=
  TestingModule.mk ps

/-- Modelled from the spec: resolution by token, as module.get in the spec
files: a registered token whose constructor dependencies are all
registered resolves to an instance, anything else is undefined. -/
def TestingModule.get (m : TestingModule) (t : NestToken) : Option NestInstance :=
  if t ∈ m.providers ∧ ∀ d ∈ constructorDeps t, d ∈ m.providers then some (NestInstance.mk t)
  else none

/-- C10: constructing the SolverEngine and NLU modules always succeeds.
SolverEngineService, NluService, NluController and SolverEngineController
take no injected dependencies, so a testing module listing only one of
them as its sole provider or controller resolves it to a defined
instance. -/
theorem di_modules_resolve :
    constructorDeps NestToken.solverEngineService = []
    ∧ constructorDeps NestToken.nluService = []
    ∧ constructorDeps NestToken.nluController = []
    ∧ constructorDeps NestToken.solverEngineController = []
    ∧ ((compileTestingModule [NestToken.solverEngineService]).get
        NestToken.solverEngineService).isSome = true
    ∧ ((compileTestingModule [NestToken.nluService]).get NestToken.nluService).isSome = true
    ∧ ((compileTestingModule [NestToken.nluController]).get
        NestToken.nluController).isSome = true
    ∧ ((compileTestingModule [NestToken.solverEngineController]).get
        NestToken.solverEngineController).isSome = true := by
  decide
